import Mathlib

/-
  Verification of the multipart `Field` component (src/field.rs) of the
  multer-rs streaming multipart parser.

  The embedding models the code of src/field.rs directly.  Collaborators that
  live outside the provided sources are treated as follows:
  * the shared `MultipartState` (state.rs, the spec's SharedCursor) is a
    record of the fields `field.rs` reads and writes, modelled from the spec;
  * the `StreamBuffer` operations `poll_stream` and `read_field_data`
    (stream_buffer.rs) are oracle parameters: `Field::poll_next` only
    dispatches on their results;
  * the `Mutex` lock result is an explicit `Except` argument (ok payload or
    poison message);
  * the external crates (regex captures from constants.rs, mime parsing,
    encoding_rs label lookup and decoding) are either modelled from the
    spec's words or taken as abstract function parameters.
-/

namespace Multer

/-- Raw bytes, as in the bytes crate's Bytes. -/
abbrev Bytes := List Nat

/-- The streaming stage of the parser, as in state.rs (modelled from the
spec's StreamingStage table in section 4.2). -/
inductive StreamingStage where
  | CleaningPrevFieldData : StreamingStage
  | ReadingBoundary : StreamingStage
  | ReadingHeader : StreamingStage
  | ReadingFieldData : StreamingStage
  | Eof : StreamingStage
deriving DecidableEq, Repr

/-- The crate's error value: a message plus a stack of context notes added by
ErrorExt::context. -/
structure Error where
  msg : String
  ctx : List String
deriving DecidableEq, Repr

/-- crate::Error::new. -/
def Error.new (m : String) : Error := ⟨m, []⟩

/-- ErrorExt::context: wraps the error with one more context note. -/
def Error.context (e : Error) (c : String) : Error := ⟨e.msg, c :: e.ctx⟩

/-- The task-system Poll type. -/
inductive Poll (α : Type) where
  | Ready : α → Poll α
  | Pending : Poll α
deriving DecidableEq

/-- The stream buffer owned by the shared state.  Its contents are opaque to
field.rs: poll_next only threads it through the two oracle operations. -/
structure StreamBuffer where
  data : List Nat
deriving DecidableEq, Repr

/-- Modelled from the spec: the SharedCursor of section 3 (state.rs is not
among the sources).  It carries exactly the fields that field.rs touches:
the stream buffer, the boundary token, the streaming stage, the
is_prev_field_consumed flag and the optional parked next_field waker
(wakers are identified by a number). -/
structure MultipartState where
  buffer : StreamBuffer
  boundary : String
  stage : StreamingStage
  is_prev_field_consumed : Bool
  next_field_waker : Option Nat
deriving DecidableEq, Repr

/-- A raw header value: the byte string stored in the http HeaderMap. -/
abbrev HeaderValue := List Nat

/-- The http HeaderMap, keyed by lower-case header names. -/
abbrev HeaderMap := List (String × List Nat)

/-- HeaderMap::get: the first value stored under the name. -/
def headerGet (headers : HeaderMap) (name : String) : Option (List Nat) :=
  (List.lookup name headers)

/-- HeaderValue::to_str().ok(): decodes the raw value when every byte is
visible ASCII, and gives none otherwise (the http crate's contract). -/
def headerValueToStr (v : List Nat) : Option String :=
  if v.all (fun b => 32 ≤ b && b < 127) then
    some (String.mk (v.map Char.ofNat))
  else
    none

/-- A parsed media type (the mime crate's Mime): an essence plus parameters. -/
structure Mime where
  essence : String
  params : List (String × String)
deriving DecidableEq, Repr

/-- Mime::get_param: looks a parameter up by name. -/
def Mime.get_param (m : Mime) (key : String) : Option String :=
  List.lookup key m.params

/-- Whether the second list starts with the first one. -/
def beginsWith : List Char → List Char → Bool
  | [], _ => true
  | _ :: _, [] => false
  | a :: as, b :: bs => a == b && beginsWith as bs

/-- Splits at the first occurrence of sep: gives the part before it and the
part after it, or none when sep does not occur. -/
def findSplit (sep : List Char) : List Char → Option (List Char × List Char)
  | [] => none
  | c :: cs =>
      if beginsWith sep (c :: cs) then some ([], (c :: cs).drop sep.length)
      else match findSplit sep cs with
        | some (pre, post) => some (c :: pre, post)
        | none => none

/-- Modelled from the spec: the quoted-attribute pattern match of
constants.rs (CONTENT_DISPOSITION_FIELD_NAME_RE and
CONTENT_DISPOSITION_FILE_NAME_RE, which are not among the sources).  Per the
spec, a quoted name and an optional quoted filename attribute are extracted
via pattern match on the raw header value: this finds the first occurrence
of the attribute followed by its opening double quote and captures up to the
closing double quote, or gives none when the pattern does not occur. -/
def captureQuoted (attr val : String) : Option String :=
  match findSplit (attr ++ "=\"").toList val.toList with
  | some (_, rest) =>
      match findSplit ['"'] rest with
      | some (cap, _) => some (String.mk cap)
      | none => none
  | none => none

/-- The per-field metadata snapshot (FieldMeta in field.rs). -/
structure FieldMeta where
  name : Option String
  file_name : Option String
  content_type : Option Mime
  idx : Nat
deriving DecidableEq, Repr

/-- One multipart field (struct Field of field.rs).  The shared state behind
the Arc Mutex is passed to the operations explicitly. -/
structure Field where
  headers : HeaderMap
  done : Bool
  meta : FieldMeta

/-- Field::parse_content_disposition: decodes the content-disposition header
and pattern-matches the quoted name and filename attributes. -/
def Field.parse_content_disposition (headers : HeaderMap) :
    Option String × Option String :=
  let content_disposition := (headerGet headers "content-disposition").bind headerValueToStr
  let nm := content_disposition.bind (captureQuoted "name")
  let file_name := content_disposition.bind (captureQuoted "filename")
  (nm, file_name)

/-- Field::parse_content_type: decodes the content-type header and parses it
as a media type; the mime crate's parser is the abstract argument. -/
def Field.parse_content_type (parseMime : String → Option Mime)
    (headers : HeaderMap) : Option Mime :=
  ((headerGet headers "content-type").bind headerValueToStr).bind parseMime

/-- Field::new: captures the metadata from the headers; done starts false. -/
def Field.new (parseMime : String → Option Mime) (headers : HeaderMap)
    (idx : Nat) : Field :=
  let nf := Field.parse_content_disposition headers
  { headers := headers
    done := false
    meta :=
      { name := nf.1
        file_name := nf.2
        content_type := Field.parse_content_type parseMime headers
        idx := idx } }

/-- Field::name. -/
def Field.name (f : Field) : Option String := f.meta.name

/-- Field::file_name. -/
def Field.file_name (f : Field) : Option String := f.meta.file_name

/-- Field::content_type. -/
def Field.content_type (f : Field) : Option Mime := f.meta.content_type

/-- Field::index. -/
def Field.index (f : Field) : Nat := f.meta.idx

/-- What one call to Stream::poll_next leaves behind: the poll result, the
field (its done flag may have been set), the contents behind the state
mutex, and whether the lock was acquired at all. -/
structure PollOutcome where
  result : Poll (Option (Except Error Bytes))
  field : Field
  lockState : Except String MultipartState
  lockAcquired : Bool

/-- Stream::poll_next for Field (field.rs lines 344-378).  `lock` is what
self.state.lock() yields (ok contents or poison message); `pollStream` and
`readFieldData` are the StreamBuffer's two operations, each giving the
mutated buffer and its result. -/
def Field.poll_next (self : Field) (lock : Except String MultipartState)
    (pollStream : StreamBuffer → StreamBuffer × Option Error)
    (readFieldData : StreamBuffer → String →
      StreamBuffer × Except Error (Option (Bool × Bytes))) : PollOutcome :=
  if self.done then
    { result := Poll.Ready none
      field := self
      lockState := lock
      lockAcquired := false }
  else
    match lock with
    | Except.error err =>
        { result := Poll.Ready (some (Except.error
            ((Error.new err).context "Couldn't lock the multipart state")))
          field := self
          lockState := Except.error err
          lockAcquired := true }
    | Except.ok state =>
        let pulled := pollStream state.buffer
        match pulled.2 with
        | some err =>
            { result := Poll.Ready (some (Except.error
                (err.context "Couldn't read data from the stream")))
              field := self
              lockState := Except.ok { state with buffer := pulled.1 }
              lockAcquired := true }
        | none =>
            let scanned := readFieldData pulled.1 state.boundary
            let state2 := { state with buffer := scanned.1 }
            match scanned.2 with
            | Except.ok (some (true, bytes)) =>
                { result := Poll.Ready (some (Except.ok bytes))
                  field := { self with done := true }
                  lockState := Except.ok state2
                  lockAcquired := true }
            | Except.ok (some (false, bytes)) =>
                { result := Poll.Ready (some (Except.ok bytes))
                  field := self
                  lockState := Except.ok state2
                  lockAcquired := true }
            | Except.ok none =>
                { result := Poll.Pending
                  field := self
                  lockState := Except.ok state2
                  lockAcquired := true }
            | Except.error err =>
                { result := Poll.Ready (some (Except.error err))
                  field := self
                  lockState := Except.ok state2
                  lockAcquired := true }

/-- What the Drop implementation leaves behind: the contents behind the
state mutex, the error logged (if any), and the wakers woken. -/
structure DropOutcome where
  lockState : Except String MultipartState
  logged : Option Error
  woken : List Nat

/-- impl Drop for Field (field.rs lines 381-408): on lock failure, logs and
returns without mutating state; otherwise sets the stage according to done,
marks the previous field consumed, and wakes a parked waker when present. -/
def Field.dropHook (self : Field) (lock : Except String MultipartState) :
    DropOutcome :=
  match lock with
  | Except.error err =>
      { lockState := Except.error err
        logged := some ((Error.new err).context "Couldn't lock the multipart state")
        woken := [] }
  | Except.ok state =>
      let stage := if self.done then StreamingStage.ReadingBoundary
                   else StreamingStage.CleaningPrevFieldData
      let woken := match state.next_field_waker with
        | some w => [w]
        | none => []
      { lockState := Except.ok
          { state with
            stage := stage
            is_prev_field_consumed := true
            next_field_waker := none }
        logged := none
        woken := woken }

/-- Field::bytes (field.rs lines 153-162): the accumulation loop, over the
trace of results the successive chunk() pulls give.  Each trace entry is one
chunk() result; the loop stops at the first error or the first ok-none. -/
def Field.bytesLoop (chunks : List (Except Error (Option Bytes)))
    (buf : Bytes) : Except Error Bytes :=
  match chunks with
  | [] => Except.ok buf
  | Except.error e :: _ => Except.error e
  | Except.ok none :: _ => Except.ok buf
  | Except.ok (some b) :: rest => Field.bytesLoop rest (buf ++ b)

/-- Field::bytes starts from the empty buffer. -/
def Field.bytes (chunks : List (Except Error (Option Bytes))) :
    Except Error Bytes :=
  Field.bytesLoop chunks []

/-- The encoding_rs Encoding type, abstract but for the UTF_8 constant. -/
inductive Encoding where
  | UTF_8 : Encoding
  | labeled : String → Encoding
deriving DecidableEq, Repr

/-- The encoding name text_with_charset reads from the field: the charset
parameter of the content type when present, the caller default otherwise. -/
def resolveEncodingName (content_type : Option Mime)
    (default_encoding : String) : String :=
  ((content_type.bind (fun m => m.get_param "charset")).map id).getD default_encoding

/-- Field::text_with_charset (field.rs lines 295-312).  `for_label` is
encoding_rs Encoding::for_label and `decode` its (total, lossy) decoder;
`bytesResult` is what self.bytes() produced. -/
def Field.text_with_charset (for_label : String → Option Encoding)
    (decode : Encoding → Bytes → String) (self : Field)
    (bytesResult : Except Error Bytes) (default_encoding : String) :
    Except Error String :=
  let encoding_name := resolveEncodingName self.content_type default_encoding
  let encoding := (for_label encoding_name).getD Encoding.UTF_8
  match bytesResult with
  | Except.error e => Except.error e
  | Except.ok bytes => Except.ok (decode encoding bytes)

/-- Field::text (field.rs lines 265-267): text_with_charset with utf-8. -/
def Field.text (for_label : String → Option Encoding)
    (decode : Encoding → Bytes → String) (self : Field)
    (bytesResult : Except Error Bytes) : Except Error String :=
  Field.text_with_charset for_label decode self bytesResult "utf-8"

/-! Concrete fixtures used by the witness theorems. -/

/-- A field that has already yielded its final chunk. -/
def exhaustedField : Field :=
  { headers := []
    done := true
    meta := { name := none, file_name := none, content_type := none, idx := 0 } }

/-- A fresh, unfinished field without metadata. -/
def openField : Field :=
  { headers := []
    done := false
    meta := { name := none, file_name := none, content_type := none, idx := 0 } }

/-- A buffer oracle whose pull succeeds without touching the buffer. -/
def idlePollStream : StreamBuffer → StreamBuffer × Option Error :=
  fun b => (b, none)

/-- A scan oracle that always asks for more data. -/
def moreDataScan : StreamBuffer → String → StreamBuffer × Except Error (Option (Bool × Bytes)) :=
  fun b _ => (b, Except.ok none)

/-- A scan oracle that locates the final slice [10, 20]. -/
def finalSliceScan : StreamBuffer → String → StreamBuffer × Except Error (Option (Bool × Bytes)) :=
  fun b _ => (b, Except.ok (some (true, [10, 20])))

/-- A shared state parked in ReadingFieldData with waker 7. -/
def sampleState : MultipartState :=
  { buffer := { data := [1, 2, 3] }
    boundary := "X-BOUNDARY"
    stage := StreamingStage.ReadingFieldData
    is_prev_field_consumed := false
    next_field_waker := some 7 }

/-- C1: once a Field's done flag is set, every further poll_next call
returns Ready none at once, leaves the field and the shared state exactly as
they were, and does not acquire the state lock (hence touches neither the
SharedCursor nor the StreamingStage), whatever the lock contents and the
buffer oracles are. -/
theorem poll_next_after_done_short_circuits (f : Field)
    (lock : Except String MultipartState)
    (ps : StreamBuffer → StreamBuffer × Option Error)
    (rfd : StreamBuffer → String → StreamBuffer × Except Error (Option (Bool × Bytes)))
    (h : f.done = true) :
    Field.poll_next f lock ps rfd =
      { result := Poll.Ready none
        field := f
        lockState := lock
        lockAcquired := false } := by
  simp [Field.poll_next, h]

/-- Witness for C1 at a concrete exhausted field, state and oracles. -/
theorem poll_next_after_done_short_circuits_witness :
    exhaustedField.done = true ∧
    Field.poll_next exhaustedField (Except.ok sampleState) idlePollStream moreDataScan =
      { result := Poll.Ready none
        field := exhaustedField
        lockState := Except.ok sampleState
        lockAcquired := false } :=
  ⟨rfl, poll_next_after_done_short_circuits exhaustedField (Except.ok sampleState)
    idlePollStream moreDataScan rfl⟩

/-- C2: when the Field's drop hook acquires the lock, it sets the stage to
ReadingBoundary when done is set and to CleaningPrevFieldData otherwise,
sets is_prev_field_consumed and takes the parked waker in both cases, logs
nothing, and wakes the parked waker when one is present. -/
theorem dropHook_sets_stage_and_wakes (f : Field) (st : MultipartState) :
    (Field.dropHook f (Except.ok st)).lockState =
      Except.ok
        { st with
          stage := if f.done then StreamingStage.ReadingBoundary
                   else StreamingStage.CleaningPrevFieldData
          is_prev_field_consumed := true
          next_field_waker := none } ∧
    (Field.dropHook f (Except.ok st)).logged = none ∧
    (∀ w, st.next_field_waker = some w →
        (Field.dropHook f (Except.ok st)).woken = [w]) := by
  refine ⟨rfl, rfl, fun w hw => ?_⟩
  simp [Field.dropHook, hw]

/-- Witness for C2: dropping the exhausted field over sampleState moves the
stage to ReadingBoundary, marks the previous field consumed and wakes
waker 7. -/
theorem dropHook_sets_stage_and_wakes_witness :
    (Field.dropHook exhaustedField (Except.ok sampleState)).lockState =
      Except.ok
        { sampleState with
          stage := StreamingStage.ReadingBoundary
          is_prev_field_consumed := true
          next_field_waker := none } ∧
    (Field.dropHook exhaustedField (Except.ok sampleState)).woken = [7] := by
  have h := dropHook_sets_stage_and_wakes exhaustedField sampleState
  exact ⟨by simpa using h.1, h.2.2 7 rfl⟩

/-- C7: a failed lock acquisition degrades to an error rather than blocking:
poll_next on an unfinished field returns Ready (some (error ..)) carrying
the lock-failure context and leaves the field and state untouched, while the
drop hook logs the same error and returns without mutating state or waking
anyone. -/
theorem lock_failure_degrades_to_error (f : Field) (err : String)
    (ps : StreamBuffer → StreamBuffer × Option Error)
    (rfd : StreamBuffer → String → StreamBuffer × Except Error (Option (Bool × Bytes)))
    (hdone : f.done = false) :
    (Field.poll_next f (Except.error err) ps rfd).result =
      Poll.Ready (some (Except.error
        ((Error.new err).context "Couldn't lock the multipart state"))) ∧
    (Field.poll_next f (Except.error err) ps rfd).lockState = Except.error err ∧
    (Field.poll_next f (Except.error err) ps rfd).field = f ∧
    (Field.dropHook f (Except.error err)).logged =
      some ((Error.new err).context "Couldn't lock the multipart state") ∧
    (Field.dropHook f (Except.error err)).lockState = Except.error err ∧
    (Field.dropHook f (Except.error err)).woken = [] := by
  refine ⟨?_, ?_, ?_, rfl, rfl, rfl⟩ <;> simp [Field.poll_next, hdone]

/-- Witness for C7 at a concrete unfinished field and poison message. -/
theorem lock_failure_degrades_to_error_witness :
    (Field.poll_next openField (Except.error "poisoned") idlePollStream moreDataScan).result =
      Poll.Ready (some (Except.error
        ((Error.new "poisoned").context "Couldn't lock the multipart state"))) ∧
    (Field.dropHook openField (Except.error "poisoned")).logged =
      some ((Error.new "poisoned").context "Couldn't lock the multipart state") ∧
    (Field.dropHook openField (Except.error "poisoned")).lockState =
      Except.error "poisoned" := by
  have h := lock_failure_degrades_to_error openField "poisoned"
    idlePollStream moreDataScan rfl
  exact ⟨h.1, h.2.2.2.1, h.2.2.2.2.1⟩

/-- C3: one poll of an unfinished field, lock held and stream pull clean,
dispatches on the buffer scan: a final slice is yielded and marks the field
done; an interior slice is yielded and leaves the field unchanged (done
still false); a scan that needs more data returns Pending. -/
theorem poll_next_dispatch_on_scan (f : Field) (st : MultipartState)
    (ps : StreamBuffer → StreamBuffer × Option Error)
    (rfd : StreamBuffer → String → StreamBuffer × Except Error (Option (Bool × Bytes)))
    (hdone : f.done = false)
    (hps : (ps st.buffer).2 = none) :
    (∀ bytes, (rfd (ps st.buffer).1 st.boundary).2 = Except.ok (some (true, bytes)) →
        (Field.poll_next f (Except.ok st) ps rfd).result =
            Poll.Ready (some (Except.ok bytes)) ∧
        (Field.poll_next f (Except.ok st) ps rfd).field.done = true) ∧
    (∀ bytes, (rfd (ps st.buffer).1 st.boundary).2 = Except.ok (some (false, bytes)) →
        (Field.poll_next f (Except.ok st) ps rfd).result =
            Poll.Ready (some (Except.ok bytes)) ∧
        (Field.poll_next f (Except.ok st) ps rfd).field = f) ∧
    ((rfd (ps st.buffer).1 st.boundary).2 = Except.ok none →
        (Field.poll_next f (Except.ok st) ps rfd).result = Poll.Pending) := by
  refine ⟨fun bytes hrfd => ?_, fun bytes hrfd => ?_, fun hrfd => ?_⟩ <;>
    simp [Field.poll_next, hdone, hps, hrfd]

/-- Witness for C3: the final-slice branch at a concrete field, state and
oracles, yielding the slice [10, 20] and setting done. -/
theorem poll_next_dispatch_on_scan_witness :
    (Field.poll_next openField (Except.ok sampleState) idlePollStream finalSliceScan).result =
        Poll.Ready (some (Except.ok [10, 20])) ∧
    (Field.poll_next openField (Except.ok sampleState) idlePollStream finalSliceScan).field.done =
        true :=
  (poll_next_dispatch_on_scan openField sampleState idlePollStream finalSliceScan
    rfl rfl).1 [10, 20] rfl

/-- C4: when the scan locates the final slice, poll_next yields it without
changing the StreamingStage (the state still carries ReadingFieldData), and
once the now-done field is dropped with the lock held the stage exits to
ReadingBoundary. -/
theorem final_slice_then_drop_reads_boundary (f : Field) (st st2 : MultipartState)
    (ps : StreamBuffer → StreamBuffer × Option Error)
    (rfd : StreamBuffer → String → StreamBuffer × Except Error (Option (Bool × Bytes)))
    (bytes : Bytes)
    (hdone : f.done = false)
    (hstage : st.stage = StreamingStage.ReadingFieldData)
    (hps : (ps st.buffer).2 = none)
    (hrfd : (rfd (ps st.buffer).1 st.boundary).2 = Except.ok (some (true, bytes))) :
    (Field.poll_next f (Except.ok st) ps rfd).result =
        Poll.Ready (some (Except.ok bytes)) ∧
    (∀ st1, (Field.poll_next f (Except.ok st) ps rfd).lockState = Except.ok st1 →
        st1.stage = StreamingStage.ReadingFieldData) ∧
    (Field.dropHook (Field.poll_next f (Except.ok st) ps rfd).field
        (Except.ok st2)).lockState =
      Except.ok
        { st2 with
          stage := StreamingStage.ReadingBoundary
          is_prev_field_consumed := true
          next_field_waker := none } := by
  refine ⟨?_, fun st1 h1 => ?_, ?_⟩
  · simp [Field.poll_next, hdone, hps, hrfd]
  · simp [Field.poll_next, hdone, hps, hrfd] at h1
    exact h1 ▸ hstage
  · simp [Field.poll_next, Field.dropHook, hdone, hps, hrfd]

/-- Witness for C4 at a concrete field, state and oracles. -/
theorem final_slice_then_drop_reads_boundary_witness :
    (Field.poll_next openField (Except.ok sampleState) idlePollStream finalSliceScan).result =
        Poll.Ready (some (Except.ok [10, 20])) ∧
    (Field.dropHook
        (Field.poll_next openField (Except.ok sampleState) idlePollStream finalSliceScan).field
        (Except.ok sampleState)).lockState =
      Except.ok
        { sampleState with
          stage := StreamingStage.ReadingBoundary
          is_prev_field_consumed := true
          next_field_waker := none } := by
  have h := final_slice_then_drop_reads_boundary openField sampleState sampleState
    idlePollStream finalSliceScan [10, 20] rfl rfl rfl rfl
  exact ⟨h.1, h.2.2⟩

/-- The accumulation loop of Field::bytes passes over successful chunks,
appending them to the buffer. -/
theorem bytesLoop_append_oks (bs : List Bytes)
    (rest : List (Except Error (Option Bytes))) (buf : Bytes) :
    Field.bytesLoop ((bs.map fun b => Except.ok (some b)) ++ rest) buf =
      Field.bytesLoop rest (buf ++ bs.flatten) := by
  induction bs generalizing buf with
  | nil => simp
  | cons b bs ih => simp [Field.bytesLoop, ih, List.append_assoc]

/-- C5: Field::bytes concatenates, in order, the chunks the chunk() pulls
yield up to the first exhaustion signal (ok none), and propagates the error
of the first failing pull. -/
theorem bytes_concatenates_chunks (bs : List Bytes)
    (t : List (Except Error (Option Bytes))) (e : Error) :
    Field.bytes ((bs.map fun b => Except.ok (some b)) ++ Except.ok none :: t) =
        Except.ok bs.flatten ∧
    Field.bytes ((bs.map fun b => Except.ok (some b)) ++ Except.error e :: t) =
        Except.error e := by
  constructor <;> simp [Field.bytes, bytesLoop_append_oks, Field.bytesLoop]

/-- A media type with a recognized charset parameter. -/
def latinMime : Mime :=
  { essence := "text/plain", params := [("charset", "iso-8859-1")] }

/-- A media type with an unrecognized charset parameter. -/
def bogusMime : Mime :=
  { essence := "text/plain", params := [("charset", "bogus")] }

/-- A field whose content type declares charset iso-8859-1. -/
def latinField : Field :=
  { headers := []
    done := false
    meta := { name := some "f", file_name := none, content_type := some latinMime, idx := 0 } }

/-- A field whose content type declares an unrecognized charset. -/
def bogusField : Field :=
  { headers := []
    done := false
    meta := { name := some "f", file_name := none, content_type := some bogusMime, idx := 0 } }

/-- A small label table in the style of encoding_rs Encoding::for_label. -/
def sampleForLabel : String → Option Encoding := fun s =>
  if s = "iso-8859-1" then some (Encoding.labeled "windows-1252")
  else if s = "utf-8" then some Encoding.UTF_8
  else none

/-- A decoder that records which encoding it was handed. -/
def sampleDecode : Encoding → Bytes → String := fun enc _ =>
  match enc with
  | Encoding.UTF_8 => "via-utf8"
  | Encoding.labeled l => l

/-- C6: the text accessors decode the whole-body bytes with the encoding the
charset parameter of the content type names when one is present, and with
the caller default otherwise (text() passes utf-8); decoding is total, so
the result is ok whenever the byte read is ok, and the only failure is the
byte read's own error, which is propagated unchanged. -/
theorem text_decoding_charset_and_errors
    (for_label : String → Option Encoding) (decode : Encoding → Bytes → String)
    (f : Field) (bytes : Bytes) (e : Error) (d : String) :
    (Field.text_with_charset for_label decode f (Except.error e) d = Except.error e) ∧
    (∀ c, f.content_type.bind (fun m => m.get_param "charset") = some c →
        Field.text_with_charset for_label decode f (Except.ok bytes) d =
          Except.ok (decode ((for_label c).getD Encoding.UTF_8) bytes)) ∧
    (f.content_type.bind (fun m => m.get_param "charset") = none →
        Field.text_with_charset for_label decode f (Except.ok bytes) d =
          Except.ok (decode ((for_label d).getD Encoding.UTF_8) bytes)) ∧
    (Field.text for_label decode f (Except.ok bytes) =
        Field.text_with_charset for_label decode f (Except.ok bytes) "utf-8") := by
  refine ⟨rfl, fun c hc => ?_, fun hc => ?_, rfl⟩ <;>
    simp [Field.text_with_charset, resolveEncodingName, hc]

/-- Witness for C6: a declared charset iso-8859-1 decodes through its label
(here resolved to windows-1252) although the caller default is utf-8, a
field without charset decodes through the default, and a failing byte read
propagates. -/
theorem text_decoding_charset_and_errors_witness :
    Field.text_with_charset sampleForLabel sampleDecode latinField
        (Except.ok [1, 2]) "utf-8" = Except.ok "windows-1252" ∧
    Field.text_with_charset sampleForLabel sampleDecode openField
        (Except.ok [1, 2]) "utf-8" = Except.ok "via-utf8" ∧
    Field.text_with_charset sampleForLabel sampleDecode latinField
        (Except.error (Error.new "io")) "utf-8" = Except.error (Error.new "io") := by
  have h1 := (text_decoding_charset_and_errors sampleForLabel sampleDecode latinField
    [1, 2] (Error.new "io") "utf-8").2.1 "iso-8859-1" rfl
  have h2 := (text_decoding_charset_and_errors sampleForLabel sampleDecode openField
    [1, 2] (Error.new "io") "utf-8").2.2.1 rfl
  have h3 := (text_decoding_charset_and_errors sampleForLabel sampleDecode latinField
    [1, 2] (Error.new "io") "utf-8").1
  exact ⟨h1, h2, h3⟩

/-- C8: Field::new extracts the metadata by pattern match on the headers:
name and file_name are the quoted name and filename attributes of the
decoded content-disposition value, content_type is the parsed media type of
the decoded content-type value, and the accessors return exactly these; on
a concrete disposition value the quoted attributes are captured verbatim. -/
theorem new_extracts_meta (parseMime : String → Option Mime)
    (headers : HeaderMap) (idx : Nat) :
    (Field.new parseMime headers idx).name =
      ((headerGet headers "content-disposition").bind headerValueToStr).bind
        (captureQuoted "name") ∧
    (Field.new parseMime headers idx).file_name =
      ((headerGet headers "content-disposition").bind headerValueToStr).bind
        (captureQuoted "filename") ∧
    (Field.new parseMime headers idx).content_type =
      ((headerGet headers "content-type").bind headerValueToStr).bind parseMime ∧
    (Field.new parseMime headers idx).index = idx ∧
    (Field.new parseMime headers idx).done = false ∧
    captureQuoted "name" "form-data; name=\"My Field\"; filename=\"a.txt\"" =
      some "My Field" ∧
    captureQuoted "filename" "form-data; name=\"My Field\"; filename=\"a.txt\"" =
      some "a.txt" := by
  refine ⟨rfl, rfl, rfl, rfl, rfl, ?_, ?_⟩ <;> decide

/-- C9: Field construction is total and never fails: a missing
content-disposition header, one that does not decode as visible ASCII, or
one in which an attribute pattern does not occur leaves the corresponding
metadata at none, and likewise a missing, undecodable or unparseable
content-type leaves content_type at none. -/
theorem construction_missing_headers_give_none (parseMime : String → Option Mime)
    (headers : HeaderMap) (idx : Nat) :
    (headerGet headers "content-disposition" = none →
        (Field.new parseMime headers idx).name = none ∧
        (Field.new parseMime headers idx).file_name = none) ∧
    (∀ v, headerGet headers "content-disposition" = some v →
        headerValueToStr v = none →
        (Field.new parseMime headers idx).name = none ∧
        (Field.new parseMime headers idx).file_name = none) ∧
    (∀ s, (headerGet headers "content-disposition").bind headerValueToStr = some s →
        (captureQuoted "name" s = none → (Field.new parseMime headers idx).name = none) ∧
        (captureQuoted "filename" s = none →
          (Field.new parseMime headers idx).file_name = none)) ∧
    (headerGet headers "content-type" = none →
        (Field.new parseMime headers idx).content_type = none) ∧
    (∀ v, headerGet headers "content-type" = some v → headerValueToStr v = none →
        (Field.new parseMime headers idx).content_type = none) ∧
    (∀ s, (headerGet headers "content-type").bind headerValueToStr = some s →
        parseMime s = none → (Field.new parseMime headers idx).content_type = none) := by
  refine ⟨fun h => ?_, fun v hv hs => ?_, fun s hs => ⟨fun hc => ?_, fun hc => ?_⟩,
    fun h => ?_, fun v hv hs => ?_, fun s hs hp => ?_⟩
  · simp [Field.new, Field.name, Field.file_name,
      Field.parse_content_disposition, h]
  · simp [Field.new, Field.name, Field.file_name,
      Field.parse_content_disposition, hv, hs]
  · simp [Field.new, Field.name, Field.parse_content_disposition, hs, hc]
  · simp [Field.new, Field.file_name, Field.parse_content_disposition, hs, hc]
  · simp [Field.new, Field.content_type, Field.parse_content_type, h]
  · simp [Field.new, Field.content_type, Field.parse_content_type, hv, hs]
  · simp [Field.new, Field.content_type, Field.parse_content_type, hs, hp]

/-- Witness for C9: an empty header map gives a field with no name, no file
name and no content type. -/
theorem construction_missing_headers_give_none_witness :
    (Field.new (fun _ => none) [] 0).name = none ∧
    (Field.new (fun _ => none) [] 0).file_name = none ∧
    (Field.new (fun _ => none) [] 0).content_type = none := by
  have h := construction_missing_headers_give_none (fun _ => none) [] 0
  exact ⟨(h.1 rfl).1, (h.1 rfl).2, h.2.2.2.1 rfl⟩

/-- C10: a declared charset whose label for_label does not recognize makes
text_with_charset decode with UTF-8, not with the caller default; with a
charset parameter present the caller default is never consulted (the result
is the same for any two defaults). -/
theorem unrecognized_charset_falls_back_to_utf8
    (for_label : String → Option Encoding) (decode : Encoding → Bytes → String)
    (f : Field) (bytes : Bytes) (c d1 d2 : String)
    (hc : f.content_type.bind (fun m => m.get_param "charset") = some c) :
    (for_label c = none →
        Field.text_with_charset for_label decode f (Except.ok bytes) d1 =
          Except.ok (decode Encoding.UTF_8 bytes)) ∧
    Field.text_with_charset for_label decode f (Except.ok bytes) d1 =
      Field.text_with_charset for_label decode f (Except.ok bytes) d2 := by
  constructor
  · intro hl
    simp [Field.text_with_charset, resolveEncodingName, hc, hl]
  · simp [Field.text_with_charset, resolveEncodingName, hc]

/-- Witness for C10: charset bogus is unrecognized, so decoding goes through
UTF-8 even though the caller default iso-8859-1 is recognized, and the
result does not depend on the default at all. -/
theorem unrecognized_charset_falls_back_to_utf8_witness :
    Field.text_with_charset sampleForLabel sampleDecode bogusField
        (Except.ok [1, 2]) "iso-8859-1" = Except.ok "via-utf8" ∧
    Field.text_with_charset sampleForLabel sampleDecode bogusField
        (Except.ok [1, 2]) "iso-8859-1" =
      Field.text_with_charset sampleForLabel sampleDecode bogusField
        (Except.ok [1, 2]) "utf-8" := by
  have h := unrecognized_charset_falls_back_to_utf8 sampleForLabel sampleDecode
    bogusField [1, 2] "bogus" "iso-8859-1" "utf-8" rfl
  exact ⟨h.1 rfl, h.2⟩

end Multer
